import Mathlib

/-!
Shallow embedding of the DERP relay inbound (`protocol/tailscale` DERP
server support) and proofs about its configuration validation, request
routing, key persistence, startup lifecycle, mesh federation, and the
STUN responder loop.

External collaborators (the derp engine, the tailscale key/stun
libraries, the OS file system and sockets) are modelled as explicit
parameters or oracles; the repository's own control flow is translated
step by step from the source.
-/

namespace DERP

/-- Membership of a character in the regex character class `[0-9a-f]`
used by `checkMeshKey`'s pattern. -/
def isHexClassChar (c : Char) : Bool :=
  (('0' ≤ c) && (c ≤ '9')) || (('a' ≤ c) && (c ≤ 'f'))

/-- Anchored match of the regex `[0-9a-f]{n}` against a rune sequence:
exactly `n` runes, each in the class. -/
def matchHexClassN : Nat → List Char → Bool
  | 0, [] => true
  | 0, _ :: _ => false
  | _ + 1, [] => false
  | n + 1, c :: cs => isHexClassChar c && matchHexClassN n cs

/-- `checkMeshKey` from the source: the key must match the anchored
regex pattern of 64 hex digits, otherwise an error is returned.
(The regex literal is a constant, so Go's compile step always
succeeds; only the match outcome is observable.) -/
def checkMeshKey (meshKey : String) : Except String Unit :=
  if matchHexClassN 64 meshKey.data then
    .ok ()
  else
    .error "key must contain exactly 64 hex digits"

theorem matchHexClassN_iff (n : Nat) (l : List Char) :
    matchHexClassN n l = true ↔ (l.length = n ∧ ∀ c ∈ l, isHexClassChar c = true) := by
  induction l generalizing n with
  | nil =>
    cases n with
    | zero => simp [matchHexClassN]
    | succ n => simp [matchHexClassN]
  | cons c cs ih =>
    cases n with
    | zero => simp [matchHexClassN]
    | succ n =>
      simp only [matchHexClassN, Bool.and_eq_true, ih, List.length_cons,
        List.mem_cons]
      constructor
      · rintro ⟨hc, hlen, hall⟩
        exact ⟨by omega, fun x hx => by rcases hx with rfl | hx; exact hc; exact hall x hx⟩
      · rintro ⟨hlen, hall⟩
        exact ⟨hall c (Or.inl rfl), by omega, fun x hx => hall x (Or.inr hx)⟩

/-- C1: `checkMeshKey` succeeds exactly on strings of length 64 whose
characters are all lowercase hexadecimal digits, and returns an error
on every other string. -/
theorem checkMeshKey_ok_iff (k : String) :
    (checkMeshKey k = .ok () ↔
      (k.length = 64 ∧ ∀ c ∈ k.data, (('0' ≤ c ∧ c ≤ '9') ∨ ('a' ≤ c ∧ c ≤ 'f')))) ∧
    (¬(k.length = 64 ∧ ∀ c ∈ k.data, (('0' ≤ c ∧ c ≤ '9') ∨ ('a' ≤ c ∧ c ≤ 'f'))) →
      ∃ msg, checkMeshKey k = .error msg) := by
  have hclass : ∀ c : Char, isHexClassChar c = true ↔
      (('0' ≤ c ∧ c ≤ '9') ∨ ('a' ≤ c ∧ c ≤ 'f')) := by
    intro c
    simp [isHexClassChar, Bool.or_eq_true, Bool.and_eq_true, decide_eq_true_eq]
  have hlen : k.length = k.data.length := rfl
  constructor
  · constructor
    · intro h
      have hm : matchHexClassN 64 k.data = true := by
        by_contra hm
        rw [Bool.not_eq_true] at hm
        simp [checkMeshKey, hm] at h
      have := (matchHexClassN_iff 64 k.data).mp hm
      exact ⟨by rw [hlen]; exact this.1, fun c hc => (hclass c).mp (this.2 c hc)⟩
    · intro ⟨h1, h2⟩
      have hm : matchHexClassN 64 k.data = true :=
        (matchHexClassN_iff 64 k.data).mpr
          ⟨by rw [← hlen]; exact h1, fun c hc => (hclass c).mpr (h2 c hc)⟩
      simp [checkMeshKey, hm]
  · intro h
    refine ⟨"key must contain exactly 64 hex digits", ?_⟩
    have hm : matchHexClassN 64 k.data ≠ true := by
      intro hm
      have := (matchHexClassN_iff 64 k.data).mp hm
      exact h ⟨by rw [hlen]; exact this.1, fun c hc => (hclass c).mp (this.2 c hc)⟩
    simp [checkMeshKey, hm]

/-- Witness for C1 at a concrete malformed key (uppercase hex). -/
theorem checkMeshKey_ok_iff_witness :
    ∃ msg, checkMeshKey "ABCDEF0123456789ABCDEF0123456789ABCDEF0123456789ABCDEF0123456789" = .error msg :=
  (checkMeshKey_ok_iff "ABCDEF0123456789ABCDEF0123456789ABCDEF0123456789ABCDEF0123456789").2
    (by decide)

/-! ## Transport bridge: WebSocket upgrade gating (`addWebSocketSupport`) -/

/-- ASCII case folding of one rune, as Go's `strings.ToLower` acts on
the ASCII header values compared here. -/
def goToLowerChar (c : Char) : Char :=
  if ('A' ≤ c) && (c ≤ 'Z') then Char.ofNat (c.toNat + 32) else c

/-- Go `strings.ToLower` on ASCII strings. -/
def goToLower (s : String) : String :=
  ⟨s.data.map goToLowerChar⟩

/-- Go `strings.HasPrefix` (the check `strings.HasPrefix(val, ...)`
of `getHomeHandler`). -/
def goHasPre (s pre : String) : Bool :=
  pre.data.isPrefixOf s.data

/-- Go `strings.Contains` over runes: `sub` occurs as a contiguous
subsequence of `l`. -/
def goContainsAux (sub : List Char) : List Char → Bool
  | [] => sub.isEmpty
  | c :: rest => sub.isPrefixOf (c :: rest) || goContainsAux sub rest

/-- Go `strings.Contains s sub`. -/
def goContains (s sub : String) : Bool :=
  goContainsAux sub.data s.data

/-- The two header values `addWebSocketSupport` inspects
(`r.Header.Get` returns the first value, or `""` when absent). -/
structure HTTPRequest where
  upgrade : String
  secWebsocketProtocol : String
  deriving DecidableEq

inductive Route where
  | delegateToBase
  | websocketHandshake
  deriving DecidableEq

/-- Dispatch decision of `addWebSocketSupport`: lower-case the
`Upgrade` header; unless it equals `"websocket"` and the
`Sec-Websocket-Protocol` header contains `"derp"`, serve the request
with the wrapped base handler; otherwise enter the WebSocket
handshake path. (Go's `strings.ToLower` agrees with `String.toLower`
on the ASCII header values compared here.) -/
def addWebSocketSupportRoute (r : HTTPRequest) : Route :=
  let up := goToLower r.upgrade
  if (up != "websocket") || !goContains r.secWebsocketProtocol "derp" then
    .delegateToBase
  else
    .websocketHandshake

/-- Case-insensitive string equality, as the spec's "compared
case-insensitively" reads. -/
def ciEqual (a b : String) : Prop := goToLower a = goToLower b

/-- C2: the request is delegated unchanged to the plain binary relay
handler iff the Upgrade header is not case-insensitively `websocket`
or the Sec-Websocket-Protocol header does not contain `derp`; only a
request satisfying both goes to the WebSocket handshake path. -/
theorem addWebSocketSupport_gating (r : HTTPRequest) :
    (addWebSocketSupportRoute r = .delegateToBase ↔
      (¬ciEqual r.upgrade "websocket" ∨ goContains r.secWebsocketProtocol "derp" = false)) ∧
    (addWebSocketSupportRoute r = .websocketHandshake ↔
      (ciEqual r.upgrade "websocket" ∧ goContains r.secWebsocketProtocol "derp" = true)) := by
  have hws : goToLower "websocket" = "websocket" := by decide
  unfold addWebSocketSupportRoute ciEqual
  by_cases h1 : goToLower r.upgrade = "websocket" <;>
    cases h2 : goContains r.secWebsocketProtocol "derp" <;>
      simp [h1, h2, hws, bne]

/-- Concrete checks matching the spec's examples: `Upgrade: WebSocket`
with no `derp` token falls through, a missing Upgrade header falls
through, and a well-formed WebSocket relay request is upgraded. -/
theorem addWebSocketSupport_gating_examples :
    addWebSocketSupportRoute ⟨"WebSocket", ""⟩ = .delegateToBase ∧
    addWebSocketSupportRoute ⟨"", ""⟩ = .delegateToBase ∧
    addWebSocketSupportRoute ⟨"websocket", "derp"⟩ = .websocketHandshake := by
  decide

/-! ## TLS next-protocol adjustment in the Start stage -/

/-- `http2.NextProtoTLS`: the TLS ALPN identifier of HTTP/2. -/
def nextProtoTLS : String := "h2"

/-- Lines of the Start stage that adjust the TLS next-protocol list
after binding the TCP listener: an empty list becomes
`[h2, http/1.1]`; a non-empty list missing `h2` gets `h2` prepended;
otherwise the list is kept. -/
def ensureNextProtos (protos : List String) : List String :=
  if protos.length = 0 then
    [nextProtoTLS, "http/1.1"]
  else if !protos.contains nextProtoTLS then
    nextProtoTLS :: protos
  else
    protos

/-- C7: the adjusted next-protocol list always contains the HTTP/2
identifier; an empty configured list becomes exactly
`[h2, "http/1.1"]`; a non-empty list omitting `h2` gets `h2`
prepended with the original entries preserved in order; a list
already containing `h2` is unchanged. -/
theorem ensureNextProtos_spec (protos : List String) :
    nextProtoTLS ∈ ensureNextProtos protos ∧
    (protos = [] → ensureNextProtos protos = [nextProtoTLS, "http/1.1"]) ∧
    (protos ≠ [] → nextProtoTLS ∉ protos → ensureNextProtos protos = nextProtoTLS :: protos) ∧
    (nextProtoTLS ∈ protos → ensureNextProtos protos = protos) := by
  refine ⟨?_, ?_, ?_, ?_⟩
  · by_cases h0 : protos = []
    · simp [ensureNextProtos, h0]
    · by_cases hmem : nextProtoTLS ∈ protos
      · simp [ensureNextProtos, List.length_eq_zero, h0, hmem]
      · simp [ensureNextProtos, List.length_eq_zero, h0, hmem]
  · intro h0
    simp [ensureNextProtos, h0]
  · intro h0 hmem
    simp [ensureNextProtos, List.length_eq_zero, h0, hmem]
  · intro hmem
    have h0 : protos ≠ [] := by rintro rfl; simp at hmem
    simp [ensureNextProtos, List.length_eq_zero, h0, hmem]

/-- Witness for C7 at concrete protocol lists. -/
theorem ensureNextProtos_spec_witness :
    ensureNextProtos [] = [nextProtoTLS, "http/1.1"] ∧
    ensureNextProtos ["http/1.1"] = [nextProtoTLS, "http/1.1"] ∧
    ensureNextProtos ["h2", "spdy"] = ["h2", "spdy"] :=
  ⟨(ensureNextProtos_spec []).2.1 rfl,
   (ensureNextProtos_spec ["http/1.1"]).2.2.1 (by decide) (by decide),
   (ensureNextProtos_spec ["h2", "spdy"]).2.2.2 (by decide)⟩

/-! ## Home-page handler selection (`getHomeHandler`) -/

/-- The default informational home page served for an empty home
value (the `homePage` constant of the source). -/
def homePage : String :=
  "\n<h1>DERP</h1>\n<p>\n  This is a <a href=\"https://tailscale.com/\">Tailscale</a> DERP server.\n</p>\n\n<p>\n  It provides STUN, interactive connectivity establishment, and relaying of end-to-end encrypted traffic\n  for Tailscale clients.\n</p>\n\n<p>\n  Documentation:\n</p>\n\n<ul>\n\n<li><a href=\"https://tailscale.com/kb/1232/derp-servers\">About DERP</a></li>\n<li><a href=\"https://pkg.go.dev/tailscale.com/derp\">Protocol & Go docs</a></li>\n<li><a href=\"https://github.com/tailscale/tailscale/tree/main/cmd/derper#derp\">How to run a DERP server</a></li>\n\n</body>\n</html>\n"

/-- The observable response of a home handler: either a page served
with a status, content type and body, or an HTTP redirect. -/
inductive HomeHandler where
  | page (status : Nat) (contentType : String) (body : String)
  | redirect (status : Nat) (location : String)
  deriving DecidableEq

/-- `getHomeHandler` from the source: empty value serves the default
page with status 200; `"blank"` serves an empty body with status 200;
an `http://` or `https://` value redirects with `http.StatusFound`
(302); anything else yields no handler (`ok = false`). -/
def getHomeHandler (val : String) : Option HomeHandler :=
  if val = "" then
    some (.page 200 "text/html; charset=utf-8" homePage)
  else if val = "blank" then
    some (.page 200 "text/html; charset=utf-8" "")
  else if goHasPre val "http://" || goHasPre val "https://" then
    some (.redirect 302 val)
  else
    none

/-- The Start-stage step around `getHomeHandler`: when no handler is
returned, Start fails with `invalid home value: <val>`. -/
def homeStep (home : String) : Except String HomeHandler :=
  match getHomeHandler home with
  | some h => .ok h
  | none => .error ("invalid home value: " ++ home)

/-- C6: the empty home value serves the default HTML page with
status 200; `"blank"` serves an empty body with status 200; an
`http://`/`https://` value yields a 302 redirect to it; any other
non-empty value yields no handler and the Start stage fails. -/
theorem getHomeHandler_cases (val : String) :
    (val = "" → getHomeHandler val = some (.page 200 "text/html; charset=utf-8" homePage)) ∧
    (val = "blank" → getHomeHandler val = some (.page 200 "text/html; charset=utf-8" "")) ∧
    ((goHasPre val "http://" = true ∨ goHasPre val "https://" = true) →
      getHomeHandler val = some (.redirect 302 val)) ∧
    (val ≠ "" → val ≠ "blank" →
      goHasPre val "http://" = false → goHasPre val "https://" = false →
      getHomeHandler val = none ∧ homeStep val = .error ("invalid home value: " ++ val)) := by
  refine ⟨?_, ?_, ?_, ?_⟩
  · rintro rfl; rfl
  · rintro rfl; rfl
  · intro h
    have hne : val ≠ "" := by
      rintro rfl
      rcases h with h | h <;> exact absurd h (by decide)
    have hnb : val ≠ "blank" := by
      rintro rfl
      rcases h with h | h <;> exact absurd h (by decide)
    rcases h with h | h <;> simp [getHomeHandler, hne, hnb, h]
  · intro hne hnb h1 h2
    constructor
    · simp [getHomeHandler, hne, hnb, h1, h2]
    · simp [homeStep, getHomeHandler, hne, hnb, h1, h2]

/-- Witness for C6 at one concrete value of each kind. -/
theorem getHomeHandler_cases_witness :
    getHomeHandler "" = some (.page 200 "text/html; charset=utf-8" homePage) ∧
    getHomeHandler "blank" = some (.page 200 "text/html; charset=utf-8" "") ∧
    getHomeHandler "https://example.com" = some (.redirect 302 "https://example.com") ∧
    (getHomeHandler "relay" = none ∧
      homeStep "relay" = .error ("invalid home value: " ++ "relay")) :=
  ⟨(getHomeHandler_cases "").1 rfl,
   (getHomeHandler_cases "blank").2.1 rfl,
   (getHomeHandler_cases "https://example.com").2.2.1 (Or.inr (by decide)),
   (getHomeHandler_cases "relay").2.2.2 (by decide) (by decide) (by decide) (by decide)⟩

/-! ## Key store: `readDERPConfig` / `writeNewDERPConfig`

The node identity is produced and serialized by the external key
library: a node private key carries raw key bytes, and its JSON form
is the object `{"PrivateKey":"privkey:<lowercase hex>"}`. The file
system is modelled as a map from paths to read outcomes. -/

/-- A node private key: the raw key bytes held by the external key
library's `NodePrivate`. -/
structure NodeKey where
  bytes : List (Fin 256)
  deriving DecidableEq

/-- `derpConfig` from the source: the persisted identity file holds
exactly the private key. -/
structure derpConfig where
  PrivateKey : NodeKey
  deriving DecidableEq

/-- The outcome of one OS file read at a path. -/
inductive FileResult where
  | notExist
  | readErr (msg : String)
  | content (s : String)
  deriving DecidableEq

/-- The file system visible to the inbound: contents by path. -/
def FS := String → FileResult

/-- Lowercase hex digit of a value below sixteen. -/
def hexDigitChar (n : Nat) : Char :=
  if n < 10 then Char.ofNat (48 + n) else Char.ofNat (87 + n)

/-- Two-digit lowercase hex form of one key byte. -/
def hexEncodeByte (b : Fin 256) : List Char :=
  [hexDigitChar (b.val / 16), hexDigitChar (b.val % 16)]

/-- Lowercase hex form of the key bytes. -/
def hexEncode (bs : List (Fin 256)) : List Char :=
  bs.flatMap hexEncodeByte

/-- Value of one hex digit, if it is one. -/
def hexDigitVal (c : Char) : Option (Fin 16) :=
  if h1 : 48 ≤ c.toNat ∧ c.toNat ≤ 57 then
    some ⟨c.toNat - 48, by omega⟩
  else if h2 : 97 ≤ c.toNat ∧ c.toNat ≤ 102 then
    some ⟨c.toNat - 87, by omega⟩
  else
    none

/-- One byte from a high and a low hex digit. -/
def byteOfDigits (h l : Fin 16) : Fin 256 :=
  ⟨16 * h.val + l.val, by omega⟩

/-- Parse an even-length lowercase-hex rune sequence back to bytes. -/
def hexDecode : List Char → Option (List (Fin 256))
  | [] => some []
  | [_] => none
  | c1 :: c2 :: rest =>
    match hexDigitVal c1, hexDigitVal c2, hexDecode rest with
    | some h, some l, some bs => some (byteOfDigits h l :: bs)
    | _, _, _ => none

theorem hexDigitVal_hexDigitChar (d : Fin 16) :
    hexDigitVal (hexDigitChar d.val) = some d := by
  revert d
  decide

theorem hexDecode_hexEncode (bs : List (Fin 256)) :
    hexDecode (hexEncode bs) = some bs := by
  induction bs with
  | nil => rfl
  | cons b rest ih =>
    have hb : b.val < 256 := b.isLt
    have hhi : b.val / 16 < 16 := by omega
    have hlo : b.val % 16 < 16 := by omega
    have h1 : hexDigitVal (hexDigitChar (b.val / 16)) = some ⟨b.val / 16, hhi⟩ :=
      hexDigitVal_hexDigitChar ⟨b.val / 16, hhi⟩
    have h2 : hexDigitVal (hexDigitChar (b.val % 16)) = some ⟨b.val % 16, hlo⟩ :=
      hexDigitVal_hexDigitChar ⟨b.val % 16, hlo⟩
    have hbyte : byteOfDigits ⟨b.val / 16, hhi⟩ ⟨b.val % 16, hlo⟩ = b := by
      apply Fin.ext
      simp [byteOfDigits]
      omega
    have henc : hexEncode (b :: rest) =
        hexDigitChar (b.val / 16) :: hexDigitChar (b.val % 16) :: hexEncode rest := by
      simp [hexEncode, hexEncodeByte, List.flatMap_cons]
    rw [henc]
    simp only [hexDecode, h1, h2, ih, hbyte]

/-- JSON text that `json.Marshal` produces for a `derpConfig` (one
exported field whose value text-marshals to `privkey:` + hex):
`\x7b"PrivateKey":"privkey:<hex>"\x7d` with a brace at each end. -/
def marshalDERPConfig (c : derpConfig) : String :=
  ⟨"\x7b\"PrivateKey\":\"privkey:".data ++ hexEncode c.PrivateKey.bytes ++ "\"\x7d".data⟩

/-- Strip an exact leading rune sequence. -/
def stripPre (pre l : List Char) : Option (List Char) :=
  if pre.isPrefixOf l then some (l.drop pre.length) else none

/-- Strip an exact trailing rune sequence. -/
def stripSuf (suf l : List Char) : Option (List Char) :=
  if suf.reverse.isPrefixOf l.reverse then some (l.take (l.length - suf.length)) else none

/-- `json.Unmarshal` into `derpConfig`, restricted to the texts the
marshaller produces: the single-field object whose value is
`privkey:` + hex. Everything else fails to parse. -/
def unmarshalDERPConfig (s : String) : Option derpConfig :=
  (stripPre "\x7b\"PrivateKey\":\"privkey:".data s.data).bind fun rest =>
    (stripSuf "\"\x7d".data rest).bind fun hex =>
      (hexDecode hex).map fun bs => ⟨⟨bs⟩⟩

theorem isPrefixOf_append_self (pre m : List Char) :
    pre.isPrefixOf (pre ++ m) = true := by
  induction pre with
  | nil => simp [List.isPrefixOf]
  | cons c cs ih => simp [List.isPrefixOf, ih]

theorem stripPre_append (pre m : List Char) :
    stripPre pre (pre ++ m) = some m := by
  simp [stripPre, isPrefixOf_append_self, List.drop_left]

theorem stripSuf_append (suf m : List Char) :
    stripSuf suf (m ++ suf) = some m := by
  have h1 : suf.reverse.isPrefixOf (m ++ suf).reverse = true := by
    rw [List.reverse_append]
    exact isPrefixOf_append_self _ _
  have h2 : (m ++ suf).length - suf.length = m.length := by
    simp [List.length_append]
  simp [stripSuf, h1, h2, List.take_left]

theorem unmarshalDERPConfig_marshal (c : derpConfig) :
    unmarshalDERPConfig (marshalDERPConfig c) = some c := by
  have hdata : (marshalDERPConfig c).data =
      "\x7b\"PrivateKey\":\"privkey:".data ++
      (hexEncode c.PrivateKey.bytes ++ "\"\x7d".data) := by
    simp [marshalDERPConfig]
  unfold unmarshalDERPConfig
  rw [hdata, stripPre_append]
  simp only [Option.some_bind]
  rw [stripSuf_append]
  simp only [Option.some_bind]
  rw [hexDecode_hexEncode]
  rfl

/-- Nondeterministic inputs of the key store: the fresh key
`key.NewNode()` would draw, and the outcomes of `os.MkdirAll` and
`os.WriteFile`. -/
structure KeyStoreEnv where
  freshKey : NodeKey
  mkdirErr : Option String
  writeErr : Option String

/-- `writeNewDERPConfig`: generate a fresh key, create the parent
directories, marshal the config and write it; each OS step may fail.
(`json.Marshal` of this struct cannot fail.) Returns the config and
the resulting file system. -/
def writeNewDERPConfig (path : String) (env : KeyStoreEnv) (fs : FS) :
    Except String derpConfig × FS :=
  match env.mkdirErr with
  | some e => (.error e, fs)
  | none =>
    let config : derpConfig := ⟨env.freshKey⟩
    match env.writeErr with
    | some e => (.error e, fs)
    | none =>
      (.ok config,
       fun p => if p = path then .content (marshalDERPConfig config) else fs p)

/-- `readDERPConfig`: read the file at `path`; when it does not
exist, fall back to `writeNewDERPConfig`; any other read error is
returned; otherwise parse the content, a parse failure being an
error with no write. -/
def readDERPConfig (path : String) (env : KeyStoreEnv) (fs : FS) :
    Except String derpConfig × FS :=
  match fs path with
  | .notExist => writeNewDERPConfig path env fs
  | .readErr e => (.error e, fs)
  | .content s =>
    match unmarshalDERPConfig s with
    | none => (.error "json: cannot unmarshal derp config", fs)
    | some config => (.ok config, fs)

/-- C4: writing a freshly generated identity at a path and reading it
back from the same path yields a config whose private key equals the
generated one. -/
theorem derpConfig_write_read_roundtrip (path : String) (env env2 : KeyStoreEnv) (fs : FS)
    (hmk : env.mkdirErr = none) (hwr : env.writeErr = none) :
    (writeNewDERPConfig path env fs).1 = .ok ⟨env.freshKey⟩ ∧
    (readDERPConfig path env2 (writeNewDERPConfig path env fs).2).1 = .ok ⟨env.freshKey⟩ := by
  have hw : writeNewDERPConfig path env fs =
      (.ok ⟨env.freshKey⟩,
       fun p => if p = path then .content (marshalDERPConfig ⟨env.freshKey⟩) else fs p) := by
    unfold writeNewDERPConfig
    rw [hmk, hwr]
  rw [hw]
  refine ⟨rfl, ?_⟩
  simp [readDERPConfig, unmarshalDERPConfig_marshal]

/-- Witness for C4 at a concrete path, key and empty file system. -/
theorem derpConfig_write_read_roundtrip_witness :
    (writeNewDERPConfig "derper.key" ⟨⟨[171]⟩, none, none⟩ (fun _ => .notExist)).1 =
      .ok ⟨⟨[171]⟩⟩ ∧
    (readDERPConfig "derper.key" ⟨⟨[5]⟩, none, none⟩
      (writeNewDERPConfig "derper.key" ⟨⟨[171]⟩, none, none⟩ (fun _ => .notExist)).2).1 =
      .ok ⟨⟨[171]⟩⟩ :=
  derpConfig_write_read_roundtrip "derper.key" ⟨⟨[171]⟩, none, none⟩ ⟨⟨[5]⟩, none, none⟩
    (fun _ => .notExist) rfl rfl

/-- C5: a fresh identity is generated and persisted only when the
file does not exist; an existing file that fails to parse yields an
error with the file system untouched (no regeneration, no
overwrite); a well-formed existing file is returned as-is; a read
error other than non-existence is returned as fatal, also without
touching the file system. -/
theorem readDERPConfig_no_regenerate (path : String) (env : KeyStoreEnv) (fs : FS) :
    (∀ s, fs path = .content s → unmarshalDERPConfig s = none →
      readDERPConfig path env fs = (.error "json: cannot unmarshal derp config", fs)) ∧
    (∀ s c, fs path = .content s → unmarshalDERPConfig s = some c →
      readDERPConfig path env fs = (.ok c, fs)) ∧
    (∀ e, fs path = .readErr e → readDERPConfig path env fs = (.error e, fs)) ∧
    (fs path = .notExist → readDERPConfig path env fs = writeNewDERPConfig path env fs) := by
  refine ⟨?_, ?_, ?_, ?_⟩
  · intro s hs hparse
    simp only [readDERPConfig, hs, hparse]
  · intro s c hs hparse
    simp only [readDERPConfig, hs, hparse]
  · intro e he
    simp only [readDERPConfig, he]
  · intro h
    simp only [readDERPConfig, h]

/-- Witness for C5 at a concrete file system holding a malformed
config file. -/
theorem readDERPConfig_no_regenerate_witness :
    readDERPConfig "derper.key" ⟨⟨[171]⟩, none, none⟩ (fun _ => .content "not json") =
      (.error "json: cannot unmarshal derp config", fun _ => .content "not json") :=
  (readDERPConfig_no_regenerate "derper.key" ⟨⟨[171]⟩, none, none⟩
    (fun _ => .content "not json")).1 "not json" rfl (by decide)

/-! ## Start stage: installing the mesh key

`derp.Server.SetMeshKey` stores the given string and `HasMeshKey`
tests it non-empty; the server's mesh key starts out empty. -/

/-- The mesh-key block of the Start stage: an inline key is installed
directly; otherwise, when a key file path is configured, the file is
read and validated before installing its content. Returns the
server's mesh key after the block (empty when none was installed)
and whether the key file was read. -/
def installMeshKey (meshKey meshKeyPath : String) (fs : FS) :
    Except String String × Bool :=
  if meshKey ≠ "" then
    (.ok meshKey, false)
  else if meshKeyPath ≠ "" then
    match fs meshKeyPath with
    | .notExist => (.error "open: no such file or directory", true)
    | .readErr e => (.error e, true)
    | .content s =>
      match checkMeshKey s with
      | .error e => (.error ("invalid mesh_psk_path file: " ++ e), true)
      | .ok () => (.ok s, true)
  else
    (.ok "", false)

/-- C10: the inline mesh key takes precedence — when it is non-empty
it is installed and the key file is never read; the file is read and
validated only when the inline key is empty and the path non-empty;
with neither set, no key is installed and no file is read. -/
theorem installMeshKey_inline_precedence (meshKey meshKeyPath : String) (fs : FS) :
    (meshKey ≠ "" → installMeshKey meshKey meshKeyPath fs = (.ok meshKey, false)) ∧
    (meshKey = "" → meshKeyPath ≠ "" →
      (installMeshKey meshKey meshKeyPath fs).2 = true ∧
      (∀ s, fs meshKeyPath = .content s →
        installMeshKey meshKey meshKeyPath fs =
          ((checkMeshKey s).map (fun _ => s) |>.mapError
            (fun e => "invalid mesh_psk_path file: " ++ e), true))) ∧
    (meshKey = "" → meshKeyPath = "" →
      installMeshKey meshKey meshKeyPath fs = (.ok "", false)) := by
  refine ⟨?_, ?_, ?_⟩
  · intro h
    simp [installMeshKey, h]
  · intro h hp
    subst h
    constructor
    · cases hfs : fs meshKeyPath with
      | notExist => simp [installMeshKey, hp, hfs]
      | readErr e => simp [installMeshKey, hp, hfs]
      | content s =>
        cases hchk : checkMeshKey s with
        | error e => simp [installMeshKey, hp, hfs, hchk]
        | ok u => cases u; simp [installMeshKey, hp, hfs, hchk]
    · intro s hs
      cases hchk : checkMeshKey s with
      | error e => simp [installMeshKey, hp, hs, hchk, Except.map, Except.mapError]
      | ok u => cases u; simp [installMeshKey, hp, hs, hchk, Except.map, Except.mapError]
  · intro h hp
    simp [installMeshKey, h, hp]

/-- Witness for C10: with both an inline key and a file path
configured, the inline key is installed and the (malformed) file is
never read. -/
theorem installMeshKey_inline_precedence_witness :
    installMeshKey "aaaaaaaaaaaaaaaaaaaaaaaaaaaaaaaaaaaaaaaaaaaaaaaaaaaaaaaaaaaaaaaa"
      "mesh.key" (fun _ => .content "not a key") =
      (.ok "aaaaaaaaaaaaaaaaaaaaaaaaaaaaaaaaaaaaaaaaaaaaaaaaaaaaaaaaaaaaaaaa", false) :=
  (installMeshKey_inline_precedence
      "aaaaaaaaaaaaaaaaaaaaaaaaaaaaaaaaaaaaaaaaaaaaaaaaaaaaaaaaaaaaaaaa"
      "mesh.key" (fun _ => .content "not a key")).1 (by decide)

/-! ## Mesh federation: `startMeshWithHost` and the PostStart stage -/

/-- The fields of a mesh peer descriptor the federation code reads. -/
structure DERPMeshOptions where
  server : String
  hostname : String
  tlsEnabled : Bool
  deriving DecidableEq

/-- Outcomes of the external constructors `startMeshWithHost` calls
for one peer: outbound dialer construction, client TLS configuration
for a hostname (consulted only when the peer enables TLS), the
std-config extraction from it, and the federation client
constructor. -/
structure MeshEnv where
  dialerErr : DERPMeshOptions → Option String
  tlsClientErr : String → DERPMeshOptions → Option String
  tlsStdConfigErr : String → DERPMeshOptions → Option String
  newClientErr : DERPMeshOptions → Option String

/-- `startMeshWithHost`: resolve the hostname (explicit override,
else the server address), build the peer dialer, build the client
TLS configuration when the peer enables TLS, construct the
federation client; each step's failure aborts this peer. On success
the watch loop is launched (`.ok ()`). -/
def startMeshWithHost (env : MeshEnv) (server : DERPMeshOptions) : Except String Unit :=
  let hostname := if server.hostname ≠ "" then server.hostname else server.server
  match env.dialerErr server with
  | some e => .error e
  | none =>
    match (if server.tlsEnabled then
             match env.tlsClientErr hostname server with
             | some e => some e
             | none => env.tlsStdConfigErr hostname server
           else none) with
    | some e => .error e
    | none =>
      match env.newClientErr server with
      | some e => .error e
      | none => .ok ()

/-- The PostStart peer loop: start each configured peer in order,
returning on the first failure; the second component lists the peers
whose federation watch loop was actually started. -/
def runMeshPeers (env : MeshEnv) :
    List DERPMeshOptions → Except String Unit × List DERPMeshOptions
  | [] => (.ok (), [])
  | p :: rest =>
    match startMeshWithHost env p with
    | .error e => (.error e, [])
    | .ok () =>
      let r := runMeshPeers env rest
      (r.1, p :: r.2)

/-- The PostStart stage: when peers are configured, require a mesh
key on the server, then run the peer loop. -/
def postStartStage (serverMeshKey : String) (meshWith : List DERPMeshOptions)
    (env : MeshEnv) : Except String Unit × List DERPMeshOptions :=
  if meshWith.length > 0 then
    if serverMeshKey = "" then
      (.error "missing mesh psk", [])
    else
      runMeshPeers env meshWith
  else
    (.ok (), [])

/-- Two concrete mesh peers used in the counterexamples below. -/
def peerA : DERPMeshOptions := ⟨"relay-a.example.org", "", false⟩

def peerB : DERPMeshOptions := ⟨"relay-b.example.org", "", false⟩

/-- A mesh environment where only `peerA`'s dialer construction
fails. -/
def failFirstPeerEnv : MeshEnv :=
  ⟨fun p => if p = peerA then some "dial: no route to host" else none,
   fun _ _ => none, fun _ _ => none, fun _ => none⟩

/-- Counterexample to C8 as stated: with peers `[peerA, peerB]` and a
failure constructing `peerA`'s dialer, the PostStart loop returns the
error at once and `peerB`'s federation loop is never started — other
peers are not unaffected. -/
theorem runMeshPeers_abort_counterexample :
    postStartStage "k" [peerA, peerB] failFirstPeerEnv =
      (.error "dial: no route to host", []) ∧
    peerB ∉ (postStartStage "k" [peerA, peerB] failFirstPeerEnv).2 :=
  ⟨rfl, fun h => List.not_mem_nil peerB h⟩

/-- C8 amended: a failure to construct one peer's dialer, TLS
configuration or federation client aborts the whole PostStart loop:
the peers before the failing one in the configured order have their
federation loops started, and the failing peer and every peer after
it do not. When every peer succeeds, all loops are started. -/
theorem runMeshPeers_abort (env : MeshEnv) :
    (∀ peers, (∀ q ∈ peers, startMeshWithHost env q = .ok ()) →
      runMeshPeers env peers = (.ok (), peers)) ∧
    (∀ pre p post e, (∀ q ∈ pre, startMeshWithHost env q = .ok ()) →
      startMeshWithHost env p = .error e →
      runMeshPeers env (pre ++ p :: post) = (.error e, pre)) := by
  constructor
  · intro peers h
    induction peers with
    | nil => rfl
    | cons q rest ih =>
      have hq := h q (List.mem_cons_self q rest)
      simp only [runMeshPeers, hq]
      rw [ih (fun r hr => h r (List.mem_cons_of_mem q hr))]
  · intro pre p post e hpre hp
    induction pre with
    | nil =>
      simp only [List.nil_append, runMeshPeers, hp]
    | cons q rest ih =>
      have hq := hpre q (List.mem_cons_self q rest)
      have ih' := ih (fun r hr => hpre r (List.mem_cons_of_mem q hr))
      simp only [List.cons_append, runMeshPeers, hq]
      exact congrArg (fun r => (r.1, q :: r.2)) ih'

/-- Witness for the amended C8: all-success and first-peer-failure
runs at concrete peer lists. -/
theorem runMeshPeers_abort_witness :
    runMeshPeers failFirstPeerEnv [peerB] = (.ok (), [peerB]) ∧
    runMeshPeers failFirstPeerEnv ([peerB] ++ peerA :: [peerB]) =
      (.error "dial: no route to host", [peerB]) :=
  ⟨(runMeshPeers_abort failFirstPeerEnv).1 [peerB]
      (by intro q hq; rw [List.mem_singleton] at hq; subst hq; rfl),
   (runMeshPeers_abort failFirstPeerEnv).2 [peerB] peerA [peerB]
     "dial: no route to host"
     (by intro q hq; rw [List.mem_singleton] at hq; subst hq; rfl) rfl⟩

/-! ## The staged lifecycle: construction, Start, PostStart -/

/-- The configuration fields construction and startup read. -/
structure DERPInboundOptions where
  configPath : String
  meshPSK : String
  meshPSKFile : String
  meshWith : List DERPMeshOptions
  tlsEnabled : Bool

/-- Outcomes of the external constructors `NewDERPInbound` calls
(outbound dialer, TLS server configuration) and the process
identity. -/
structure ConstructEnv where
  dialerErr : Option String
  tlsServerErr : Option String
  uid : Nat

/-- The constructed inbound's fields used by Start/PostStart. The
`home` field is never assigned by the constructor, so it keeps the
zero value `""`. -/
structure DERPInboundModel where
  configPath : String
  meshKey : String
  meshKeyPath : String
  meshWith : List DERPMeshOptions
  home : String

/-- `NewDERPInbound`: build the outbound dialer, require TLS, build
the TLS server configuration, resolve the config path (explicit,
else the well-known root default, else an error), and validate an
inline mesh key if one was supplied. -/
def newDERPInbound (options : DERPInboundOptions) (env : ConstructEnv) :
    Except String DERPInboundModel :=
  match env.dialerErr with
  | some e => .error e
  | none =>
    if !options.tlsEnabled then
      .error "TLS is required for DERP server"
    else
      match env.tlsServerErr with
      | some e => .error e
      | none =>
        match (if options.configPath ≠ "" then
                 Except.ok options.configPath
               else if env.uid = 0 then
                 Except.ok "/var/lib/derper/derper.key"
               else
                 Except.error "missing config_path" : Except String String) with
        | .error e => .error e
        | .ok configPath =>
          if options.meshPSK ≠ "" then
            match checkMeshKey options.meshPSK with
            | .error e => .error ("invalid mesh_psk: " ++ e)
            | .ok _ =>
              .ok ⟨configPath, options.meshPSK, options.meshPSKFile, options.meshWith, ""⟩
          else
            .ok ⟨configPath, options.meshPSK, options.meshPSKFile, options.meshWith, ""⟩

/-- Nondeterministic inputs of the Start stage: the file system, the
key-store inputs, the TLS-start and TCP/UDP listen outcomes, the
configured STUN port and the configured TLS next-protocol list. -/
structure StartEnv where
  fs : FS
  keyEnv : KeyStoreEnv
  tlsStartErr : Option String
  listenErr : Option String
  stunPort : Nat
  stunListenErr : Option String
  tlsNextProtos : List String

/-- The state the Start stage leaves behind when it succeeds. -/
structure StartState where
  serverMeshKey : String
  home : HomeHandler
  nextProtos : List String
  stunStarted : Bool

/-- The `StartStateStart` stage in source order: read or create the
node identity, install the mesh key (inline, else from file), select
the home handler, start TLS, bind the TCP listener, adjust the TLS
next-protocol list, and bind the STUN socket when a port is
configured. -/
def runStartStage (d : DERPInboundModel) (env : StartEnv) : Except String StartState :=
  match (readDERPConfig d.configPath env.keyEnv env.fs).1 with
  | .error e => .error e
  | .ok _config =>
    match installMeshKey d.meshKey d.meshKeyPath (readDERPConfig d.configPath env.keyEnv env.fs).2 with
    | (.error e, _) => .error e
    | (.ok meshKey, _) =>
      match homeStep d.home with
      | .error e => .error e
      | .ok home =>
        match env.tlsStartErr with
        | some e => .error e
        | none =>
          match env.listenErr with
          | some e => .error e
          | none =>
            let protos := ensureNextProtos env.tlsNextProtos
            if env.stunPort ≠ 0 then
              match env.stunListenErr with
              | some e => .error e
              | none => .ok ⟨meshKey, home, protos, true⟩
            else
              .ok ⟨meshKey, home, protos, false⟩

/-- The stage at which the staged bring-up failed. -/
inductive Phase where
  | construction
  | start
  | postStart
  deriving DecidableEq

/-- The observable outcome of running construction, Start and
PostStart in order: the failing stage and error, or success; in
either case the list of peers whose federation loop was started. -/
inductive LifecycleResult where
  | failedAt (phase : Phase) (e : String) (peersStarted : List DERPMeshOptions)
  | ok (peersStarted : List DERPMeshOptions)

def runLifecycle (options : DERPInboundOptions) (cenv : ConstructEnv)
    (senv : StartEnv) (menv : MeshEnv) : LifecycleResult :=
  match newDERPInbound options cenv with
  | .error e => .failedAt .construction e []
  | .ok d =>
    match runStartStage d senv with
    | .error e => .failedAt .start e []
    | .ok st =>
      match postStartStage st.serverMeshKey d.meshWith menv with
      | (.error e, started) => .failedAt .postStart e started
      | (.ok _, started) => .ok started

def failedPhase : LifecycleResult → Option Phase
  | .failedAt ph _ _ => some ph
  | .ok _ => none

def lifecyclePeersStarted : LifecycleResult → List DERPMeshOptions
  | .failedAt _ _ s => s
  | .ok s => s

/-- Concrete configuration for the C3 counterexample: no inline key,
a mesh key file containing a malformed key, and one configured mesh
peer. -/
def c3Options : DERPInboundOptions :=
  ⟨"derper.key", "", "mesh.key", [peerA], true⟩

def c3CEnv : ConstructEnv := ⟨none, none, 1000⟩

/-- File system of the C3 counterexample: a well-formed persisted
identity and a malformed mesh key file. -/
def c3FS : FS := fun p =>
  if p = "derper.key" then .content (marshalDERPConfig ⟨⟨[171]⟩⟩)
  else if p = "mesh.key" then .content "zz"
  else .notExist

def c3SEnv : StartEnv := ⟨c3FS, ⟨⟨[5]⟩, none, none⟩, none, none, 0, none, []⟩

/-- Counterexample to C3 as stated: with a malformed mesh key file
and a configured mesh peer, the bring-up fails at the Start stage
(while installing the key), not at the PostStart stage; PostStart is
never reached. -/
theorem meshKey_failure_phase_counterexample :
    failedPhase (runLifecycle c3Options c3CEnv c3SEnv failFirstPeerEnv) = some .start ∧
    failedPhase (runLifecycle c3Options c3CEnv c3SEnv failFirstPeerEnv) ≠ some .postStart ∧
    checkMeshKey "zz" = .error "key must contain exactly 64 hex digits" := by
  refine ⟨?_, ?_, ?_⟩
  · rfl
  · intro h
    rw [show failedPhase (runLifecycle c3Options c3CEnv c3SEnv failFirstPeerEnv) =
        some Phase.start from rfl] at h
    simp at h
  · rfl

/-- C3 amended: (a) with mesh peers configured and no mesh key
installed, PostStart fails with `missing mesh psk` before any peer
federation loop is started; (b) a malformed inline mesh key fails
construction, with no peer started; (c) with construction succeeded,
an empty inline key, a key file path configured and malformed file
content, the Start stage fails, with no peer started — in every
case the failure comes before any peer federation connection is
opened. -/
theorem meshKey_failure_phases (options : DERPInboundOptions) (cenv : ConstructEnv)
    (senv : StartEnv) (menv : MeshEnv) :
    (∀ meshWith, meshWith ≠ [] →
      postStartStage "" meshWith menv = (.error "missing mesh psk", [])) ∧
    (∀ msg, options.meshPSK ≠ "" → checkMeshKey options.meshPSK = .error msg →
      failedPhase (runLifecycle options cenv senv menv) = some .construction ∧
      lifecyclePeersStarted (runLifecycle options cenv senv menv) = []) ∧
    (∀ d, newDERPInbound options cenv = .ok d → d.meshKey = "" → d.meshKeyPath ≠ "" →
      (∀ s, (readDERPConfig d.configPath senv.keyEnv senv.fs).2 d.meshKeyPath = .content s →
        checkMeshKey s ≠ .ok ()) →
      failedPhase (runLifecycle options cenv senv menv) = some .start ∧
      lifecyclePeersStarted (runLifecycle options cenv senv menv) = []) := by
  refine ⟨?_, ?_, ?_⟩
  · intro meshWith hne
    have hlen : meshWith.length > 0 := List.length_pos.mpr hne
    simp [postStartStage, hlen]
  · intro msg hne hchk
    have hctor : ∃ e, newDERPInbound options cenv = .error e := by
      unfold newDERPInbound
      cases cenv.dialerErr with
      | some e => exact ⟨e, rfl⟩
      | none =>
        cases hT : options.tlsEnabled with
        | false => exact ⟨"TLS is required for DERP server", by simp [hT]⟩
        | true =>
          cases cenv.tlsServerErr with
          | some e => exact ⟨e, by simp [hT]⟩
          | none =>
            by_cases hcp : options.configPath ≠ ""
            · exact ⟨"invalid mesh_psk: " ++ msg, by simp [hT, hcp, hne, hchk]⟩
            · by_cases huid : cenv.uid = 0
              · exact ⟨"invalid mesh_psk: " ++ msg, by simp [hT, hcp, huid, hne, hchk]⟩
              · exact ⟨"missing config_path", by simp [hT, hcp, huid]⟩
    obtain ⟨e, he⟩ := hctor
    constructor
    · simp [runLifecycle, he, failedPhase]
    · simp [runLifecycle, he, lifecyclePeersStarted]
  · intro d hd hkey hpath hbad
    have hstart : ∃ e, runStartStage d senv = .error e := by
      unfold runStartStage
      cases hread : (readDERPConfig d.configPath senv.keyEnv senv.fs).1 with
      | error e => exact ⟨e, rfl⟩
      | ok config =>
        have hinst : ∃ e b,
            installMeshKey d.meshKey d.meshKeyPath
              (readDERPConfig d.configPath senv.keyEnv senv.fs).2 = (.error e, b) := by
          rw [hkey]
          cases hfs : (readDERPConfig d.configPath senv.keyEnv senv.fs).2 d.meshKeyPath with
          | notExist =>
            exact ⟨"open: no such file or directory", true, by simp [installMeshKey, hpath, hfs]⟩
          | readErr e => exact ⟨e, true, by simp [installMeshKey, hpath, hfs]⟩
          | content s =>
            cases hchk : checkMeshKey s with
            | error e =>
              exact ⟨"invalid mesh_psk_path file: " ++ e, true,
                by simp [installMeshKey, hpath, hfs, hchk]⟩
            | ok u =>
              cases u
              exact absurd hchk (hbad s hfs)
        obtain ⟨e, b, hinst⟩ := hinst
        exact ⟨e, by simp [hinst]⟩
    obtain ⟨e, he⟩ := hstart
    constructor
    · simp [runLifecycle, hd, he, failedPhase]
    · simp [runLifecycle, hd, he, lifecyclePeersStarted]

/-- Witness for the amended C3 at concrete configurations: a missing
key with one peer fails PostStart with nothing started; a malformed
inline key fails construction; the malformed key file of the
counterexample configuration fails Start. -/
theorem meshKey_failure_phases_witness :
    postStartStage "" [peerA] failFirstPeerEnv = (.error "missing mesh psk", []) ∧
    (failedPhase (runLifecycle ⟨"derper.key", "zz", "", [], true⟩ c3CEnv c3SEnv failFirstPeerEnv) =
        some .construction ∧
      lifecyclePeersStarted
        (runLifecycle ⟨"derper.key", "zz", "", [], true⟩ c3CEnv c3SEnv failFirstPeerEnv) = []) ∧
    (failedPhase (runLifecycle c3Options c3CEnv c3SEnv failFirstPeerEnv) = some .start ∧
      lifecyclePeersStarted (runLifecycle c3Options c3CEnv c3SEnv failFirstPeerEnv) = []) :=
  ⟨(meshKey_failure_phases c3Options c3CEnv c3SEnv failFirstPeerEnv).1 [peerA]
      (by intro h; exact List.noConfusion h),
   (meshKey_failure_phases ⟨"derper.key", "zz", "", [], true⟩ c3CEnv c3SEnv failFirstPeerEnv).2.1
      "key must contain exactly 64 hex digits" (by decide) rfl,
   (meshKey_failure_phases c3Options c3CEnv c3SEnv failFirstPeerEnv).2.2
      ⟨"derper.key", "", "mesh.key", [peerA], ""⟩ rfl rfl (by decide)
      (by
        intro s hs hchk
        have hzz : (readDERPConfig "derper.key" c3SEnv.keyEnv c3SEnv.fs).2 "mesh.key" =
            .content "zz" := rfl
        rw [hzz] at hs
        cases hs
        exact Except.noConfusion hchk)⟩

/-! ## The STUN responder loop -/

/-- A received UDP datagram as the external stun library classifies
it: whether `stun.Is` recognizes it, the transaction id
`stun.ParseBindingRequest` extracts when it parses, and the observed
source address/port. -/
structure Datagram where
  isStun : Bool
  bindingRequest : Option Nat
  source : Nat
  deriving DecidableEq

/-- One read outcome of the loop's UDP socket. -/
inductive ReadEvent where
  | readErr (closedOrCanceled : Bool)
  | packet (d : Datagram)
  deriving DecidableEq

/-- The externally visible actions of the loop. -/
inductive LoopAction where
  | sleepOneSecond
  | respond (txid : Nat) (dest : Nat)
  deriving DecidableEq

/-- `loopSTUN` over a finite trace of read outcomes: whether the
loop returned within the trace, and the actions taken in order. A
closed/canceled read error returns; any other read error sleeps one
second and retries; a datagram not recognized as STUN, or not
parsing as a binding request, is skipped; a parsed binding request
is answered to its source. -/
def loopSTUN : List ReadEvent → Bool × List LoopAction
  | [] => (false, [])
  | .readErr true :: _ => (true, [])
  | .readErr false :: rest =>
    let r := loopSTUN rest
    (r.1, .sleepOneSecond :: r.2)
  | .packet d :: rest =>
    let r := loopSTUN rest
    if !d.isStun then r
    else
      match d.bindingRequest with
      | none => r
      | some txid => (r.1, .respond txid d.source :: r.2)

/-- C9: the loop returns within a trace iff the trace contains a
closed/canceled read error; a transient read error contributes one
one-second pause and processing continues; a datagram that is not
recognizable as STUN or fails to parse as a binding request is
skipped silently — no action, no response and no termination. -/
theorem loopSTUN_spec :
    (∀ events, (loopSTUN events).1 = true ↔ ReadEvent.readErr true ∈ events) ∧
    (∀ rest, loopSTUN (.readErr false :: rest) =
      ((loopSTUN rest).1, .sleepOneSecond :: (loopSTUN rest).2)) ∧
    (∀ d rest, (d.isStun = false ∨ d.bindingRequest = none) →
      loopSTUN (.packet d :: rest) = loopSTUN rest) := by
  refine ⟨?_, ?_, ?_⟩
  · intro events
    induction events with
    | nil => simp [loopSTUN]
    | cons e rest ih =>
      cases e with
      | readErr closed =>
        cases closed with
        | true => simp [loopSTUN]
        | false => simp [loopSTUN, ih]
      | packet d =>
        cases hstun : d.isStun with
        | false => simp [loopSTUN, hstun, ih]
        | true =>
          cases hbr : d.bindingRequest with
          | none => simp [loopSTUN, hstun, hbr, ih]
          | some txid => simp [loopSTUN, hstun, hbr, ih]
  · intro rest
    rfl
  · intro d rest h
    rcases h with h | h
    · simp [loopSTUN, h]
    · cases hstun : d.isStun with
      | false => simp [loopSTUN, hstun]
      | true => simp [loopSTUN, hstun, h]

/-- Witness for C9: a transient error, a non-STUN datagram and an
unparsable STUN datagram before a closed read error produce one
sleep, no response, and termination. -/
theorem loopSTUN_spec_witness :
    loopSTUN [.readErr false, .packet ⟨false, some 7, 1⟩, .packet ⟨true, none, 2⟩,
        .readErr true] = (true, [.sleepOneSecond]) ∧
    ((loopSTUN [.packet ⟨true, none, 2⟩]).1 = true ↔
      ReadEvent.readErr true ∈ [ReadEvent.packet ⟨true, none, 2⟩]) ∧
    loopSTUN [ReadEvent.packet ⟨false, some 7, 1⟩] = loopSTUN [] :=
  ⟨by decide,
   (loopSTUN_spec.1 [.packet ⟨true, none, 2⟩]),
   loopSTUN_spec.2.2 ⟨false, some 7, 1⟩ [] (Or.inl rfl)⟩

end DERP
